import Mathlib

/-!
Verification of the asynchronous job/event pipeline of a CRM server:
the Redis-backed queue broker (`src/config/redis.js`), the domain job
consumers (`src/consumers/customer.consumer.js`,
`src/consumers/campaign.consumer.js`), the simulated vendor API and its
delivery-receipt webhook (`vendor.controller.js`), and the batched
campaign delivery engine.

The JavaScript source is shallowly embedded: object spreads become
structure updates, thrown exceptions become `Except.error`, the Redis
list substrate becomes a function from queue names to job lists, and
nondeterministic inputs (random vendor outcomes, storage failures)
become explicit oracle parameters.  Timestamps are modelled as natural
numbers and JavaScript's `Number.toFixed(2)` as rounding a rational to
two decimal places.
-/

namespace CRM

/-! ## Broker (RedisService, src/config/redis.js) -/

/-- A job record as it travels through the broker.  `type` and `payload`
are the caller-supplied fields the broker never touches; `id`,
`timestamp` and `status` are (re)generated by `addToQueue`; `error` and
`failedAt` are the dead-letter annotations added by `processQueue`. -/
structure Job where
  id : Nat
  timestamp : Nat
  status : String
  type : String
  payload : String
  error : Option String
  failedAt : Option Nat
deriving Repr, DecidableEq

/-- The Redis list substrate: each queue name holds an ordered list of
jobs (head = next job handed to `brPop`). -/
def QueueMap : Type := String → List Job

/-- RedisService.addToQueue, lines 96-111: the stored job is the
caller's job spread first, then overwritten with a freshly generated
`id`, a fresh `timestamp`, and `status: 'pending'`. -/
def addToQueue (freshId freshTime : Nat) (job : Job) : Job :=
  { job with id := freshId, timestamp := freshTime, status := "pending" }

/-- Appending the job built by `addToQueue` to the tail of a named
queue (the `lPush` side of the FIFO discipline). -/
def enqueue (queueName : String) (freshId freshTime : Nat) (job : Job) (st : QueueMap) :
    QueueMap :=
  fun n => if n = queueName then st n ++ [addToQueue freshId freshTime job] else st n

/-- The dead-letter copy built in RedisService.processQueue, lines
132-136: the failed job spread together with `error` (the handler's
message) and `failedAt`. -/
def deadLetterJob (job : Job) (msg : String) (failTime : Nat) : Job :=
  { job with error := some msg, failedAt := some failTime }

/-- One iteration of RedisService.processQueue, lines 117-144, in the
case where `brPop` returned a job: the job is removed from the head of
the queue and the handler is invoked; on handler success nothing else
happens, on handler error the annotated copy is enqueued onto
`<queue>:failed` via `addToQueue`. -/
def processQueueStep (st : QueueMap) (queueName : String)
    (handler : Job → Except String Unit) (freshId freshTime failTime : Nat) : QueueMap :=
  match st queueName with
  | [] => st
  | job :: rest =>
      let st1 : QueueMap := fun n => if n = queueName then rest else st n
      match handler job with
      | Except.ok _ => st1
      | Except.error msg =>
          enqueue (queueName ++ ":failed") freshId freshTime (deadLetterJob job msg failTime) st1

/-- Point-in-time queue statistics. -/
structure QueueStats where
  pending : Nat
  failed : Nat
  total : Nat
deriving Repr, DecidableEq

/-- RedisService.getQueueStats, lines 148-162: read the two list
lengths (either read may fail, modelled by `Except`); on success return
`{pending, failed, total = pending + failed}`, on any substrate error
return all zeros. -/
def getQueueStats (llen : String → Except String Nat) (queueName : String) : QueueStats :=
  match llen queueName, llen (queueName ++ ":failed") with
  | Except.ok p, Except.ok f => ⟨p, f, p + f⟩
  | Except.ok _, Except.error _ => ⟨0, 0, 0⟩
  | Except.error _, _ => ⟨0, 0, 0⟩

/-- A queue name is always distinct from its dead-letter companion. -/
theorem ne_failedQueue (q : String) : q ≠ q ++ ":failed" := by
  intro h
  have hlen : q.length = (q ++ ":failed").length := by rw [← h]
  rw [String.length_append] at hlen
  have h7 : (":failed" : String).length = 7 := rfl
  omega

/-! ## Domain consumers: job dispatchers -/

/-- The job types the campaign consumer dispatches on. -/
def campaignJobTypes : List String := ["DELIVER_CAMPAIGN"]

/-- The job types the customer consumer dispatches on. -/
def customerJobTypes : List String :=
  ["CREATE_CUSTOMER", "UPDATE_CUSTOMER", "DELETE_CUSTOMER",
   "BULK_IMPORT_CUSTOMERS", "UPDATE_CUSTOMER_STATS"]

/-- CampaignConsumer.processCampaignJob, campaign.consumer.js lines
38-55: switch on `job.type`; `DELIVER_CAMPAIGN` runs the delivery
handler (whose error the catch re-throws); any other type only logs
`Unknown campaign job type` and falls through, returning normally. -/
def processCampaignJob (deliver : Job → Except String Unit) (job : Job) :
    Except String Unit :=
  if job.type = "DELIVER_CAMPAIGN" then deliver job
  else Except.ok ()

/-- CustomerConsumer.processCustomerJob, customer.consumer.js lines
58-85: switch on `job.type` over the five known customer job types; the
default branch throws `Unknown job type: <type>`, which the catch
re-throws to the consumer loop. -/
def processCustomerJob (createC updateC deleteC bulkImport updStats : Job → Except String Unit)
    (job : Job) : Except String Unit :=
  if job.type = "CREATE_CUSTOMER" then createC job
  else if job.type = "UPDATE_CUSTOMER" then updateC job
  else if job.type = "DELETE_CUSTOMER" then deleteC job
  else if job.type = "BULK_IMPORT_CUSTOMERS" then bulkImport job
  else if job.type = "UPDATE_CUSTOMER_STATS" then updStats job
  else Except.error ("Unknown job type: " ++ job.type)

/-! ## Vendor simulator (VendorAPIService, vendor.controller.js) -/

/-- JavaScript's `x.toFixed(2)` on a nonnegative number, read back as
the rational it denotes: round to the nearest hundredth (half up). -/
def toFixed2 (x : ℚ) : ℚ := ((Int.floor (x * 100 + 1 / 2) : ℤ) : ℚ) / 100

/-- The process-wide vendor delivery statistics object. -/
structure VendorStats where
  totalSent : Nat
  successful : Nat
  failed : Nat
  successRate : ℚ
deriving Repr, DecidableEq

/-- The constructor / resetStats value, vendor.controller.js lines 6-13
and 225-232. -/
def initialVendorStats : VendorStats := ⟨0, 0, 0, 0⟩

/-- VendorAPIService.updateStats, lines 198-206: increment `totalSent`,
increment exactly one of `successful`/`failed` according to the send
decision, and recompute `successRate = (successful/totalSent*100).toFixed(2)`. -/
def updateStats (s : VendorStats) (isSuccess : Bool) : VendorStats :=
  let totalSent := s.totalSent + 1
  let successful := if isSuccess then s.successful + 1 else s.successful
  let failed := if isSuccess then s.failed else s.failed + 1
  { totalSent := totalSent, successful := successful, failed := failed,
    successRate := toFixed2 ((successful : ℚ) / (totalSent : ℚ) * 100) }

/-- An observable mutation of the vendor statistics: either one send
decision (`sendEmail` calling `updateStats`) or an explicit
`resetStats`. -/
inductive StatsEvent where
  | send (isSuccess : Bool)
  | reset
deriving Repr, DecidableEq

/-- Apply one statistics event. -/
def applyStatsEvent (s : VendorStats) (e : StatsEvent) : VendorStats :=
  match e with
  | StatsEvent.send b => updateStats s b
  | StatsEvent.reset => initialVendorStats

/-- The statistics after a whole history of events, starting from the
constructor state. -/
def runStats (events : List StatsEvent) : VendorStats :=
  events.foldl applyStatsEvent initialVendorStats

/-- Aggregate result of VendorAPIService.sendBulkEmails (sent/failed
counters and batch size; the per-email `details` array is not needed by
any claim). -/
structure BulkResult where
  sent : Nat
  failed : Nat
  total : Nat
deriving Repr, DecidableEq

/-- One iteration of the sendBulkEmails loop body, lines 87-120: the
vendor's decision for the email at the current position (success with
status SENT, modelled by the oracle bit) increments `sent`; every other
outcome — an immediate FAILED status or a per-email exception —
increments `failed`. -/
def sendBulkStep {α : Type} (outcome : Nat → Bool) (acc : BulkResult × Nat) (_ : α) :
    BulkResult × Nat :=
  if outcome acc.2 then (⟨acc.1.sent + 1, acc.1.failed, acc.1.total⟩, acc.2 + 1)
  else (⟨acc.1.sent, acc.1.failed + 1, acc.1.total⟩, acc.2 + 1)

/-- VendorAPIService.sendBulkEmails, lines 76-124: walk the batch in
order applying `sendBulkStep` to each email; no per-email outcome
aborts the rest of the batch. -/
def sendBulkEmails {α : Type} (outcome : Nat → Bool) (batch : List α) : BulkResult :=
  (batch.foldl (sendBulkStep outcome) (⟨0, 0, batch.length⟩, 0)).1

/-! ## Campaign delivery engine (CampaignConsumer.deliverCampaign) -/

/-- CampaignConsumer.createBatches, campaign.consumer.js lines 220-226:
`for (i = 0; i < array.length; i += batchSize) push(array.slice(i, i + batchSize))`.
The `batchSize = 0` guard is vacuous for the engine, which always calls
this with batch size 10. -/
def createBatches {α : Type} (array : List α) (batchSize : Nat) : List (List α) :=
  if array.isEmpty then []
  else if batchSize = 0 then []
  else array.take batchSize :: createBatches (array.drop batchSize) batchSize
termination_by array.length
decreasing_by
  simp only [List.length_drop]
  rename_i h1 h2
  rw [List.isEmpty_iff_length_eq_zero] at h1
  omega

/-- Per-campaign state, with the fields deliverCampaign reads/writes. -/
structure DeliveryStats where
  sent : Nat
  failed : Nat
  total : Nat
  successRate : ℚ
deriving Repr, DecidableEq

/-- A campaign document as deliverCampaign sees it. -/
structure Campaign where
  status : String
  startedAt : Option Nat
  completedAt : Option Nat
  deliveryStats : Option DeliveryStats
  failureReason : Option String
deriving Repr, DecidableEq

/-- What the vendor does with one whole batch: either `sendBulkEmails`
returns normally (with the given per-email outcome bits), or the call
itself throws a batch-level exception, caught by the inner catch at
campaign.consumer.js lines 108-121. -/
inductive BatchBehavior where
  | ok (outcome : Nat → Bool)
  | exn (msg : String)

/-- The batch loop of deliverCampaign, lines 76-122, accumulating
`sentCount`/`failedCount` over the batches in order.  `logInsert idx`
is the storage oracle for `createCommunicationLogs` on batch `idx`:
`some msg` means the bulk insert threw, which nothing inside the loop
catches, so the whole procedure aborts with that error; `none` means it
succeeded.  A batch-level vendor exception (`BatchBehavior.exn`) is
caught in the loop: the whole batch is counted against `failedCount`
(and its logs force-marked failed) and the loop continues. -/
def runBatches {α : Type} (behavior : Nat → BatchBehavior) (logInsert : Nat → Option String) :
    Nat → Nat → Nat → List (List α) → Except String (Nat × Nat)
  | _, sentCount, failedCount, [] => Except.ok (sentCount, failedCount)
  | idx, sentCount, failedCount, batch :: rest =>
      match logInsert idx with
      | some msg => Except.error msg
      | none =>
          match behavior idx with
          | BatchBehavior.ok outcome =>
              let r := sendBulkEmails outcome batch
              runBatches behavior logInsert (idx + 1) (sentCount + r.sent)
                (failedCount + r.failed) rest
          | BatchBehavior.exn _ =>
              runBatches behavior logInsert (idx + 1) sentCount
                (failedCount + batch.length) rest

/-- The first persisted write of deliverCampaign, lines 62-65: status
becomes `processing` and `started_at` is stamped. -/
def processingUpdate (c : Campaign) (startTime : Nat) : Campaign :=
  { c with status := "processing", startedAt := some startTime }

/-- CampaignConsumer.deliverCampaign, campaign.consumer.js lines
57-150: mark the campaign `processing`, split the customers into
batches of 10, run the batch loop, then either write the `completed`
state with final delivery statistics (success rate via `toFixed(2)`),
or — when an exception escaped the loop — write the `failed` state with
`failure_reason` and re-throw the error to the caller.  Returns the
final persisted campaign together with the handler outcome the job
consumer loop sees. -/
def deliverCampaign {α : Type} (behavior : Nat → BatchBehavior)
    (logInsert : Nat → Option String) (customers : List α) (c : Campaign)
    (startTime endTime : Nat) : Campaign × Except String Unit :=
  let c1 := processingUpdate c startTime
  match runBatches behavior logInsert 0 0 0 (createBatches customers 10) with
  | Except.ok (sentCount, failedCount) =>
      ({ c1 with
          status := "completed",
          completedAt := some endTime,
          deliveryStats := some
            ⟨sentCount, failedCount, customers.length,
             toFixed2 ((sentCount : ℚ) / (customers.length : ℚ) * 100)⟩ },
       Except.ok ())
  | Except.error msg =>
      ({ c1 with
          status := "failed",
          completedAt := some endTime,
          failureReason := some msg },
       Except.error msg)

/-- The successive persisted campaign states a run of deliverCampaign
produces: the initial document, the `processing` update, and the final
terminal update. -/
def deliverCampaignTrace {α : Type} (behavior : Nat → BatchBehavior)
    (logInsert : Nat → Option String) (customers : List α) (c : Campaign)
    (startTime endTime : Nat) : List Campaign :=
  [c, processingUpdate c startTime,
   (deliverCampaign behavior logInsert customers c startTime endTime).1]

/-! ## Delivery receipt webhook (handleDeliveryReceipt, vendor.controller.js) -/

/-- The metadata object stamped on a communication log by the receipt
handler. -/
structure LogMeta where
  vendor_message_id : Option String
  receipt_received_at : Option Nat
  vendor_webhook : Bool
deriving Repr, DecidableEq

/-- A CommunicationLog row, restricted to the fields the receipt
handler reads and writes. -/
structure CommLog where
  message_id : String
  status : String
  delivered_at : Option Nat
  failure_reason : Option String
  metadata : LogMeta
deriving Repr, DecidableEq

/-- The body of a delivery-receipt webhook request;  `messageId` and
`status` are `Option` because the handler validates their presence. -/
structure Receipt where
  messageId : Option String
  status : Option String
  deliveredAt : Nat
  failureReason : Option String
  vendorMessageId : Option String

/-- The update document built at vendor.controller.js lines 323-332:
lowercased status, `delivered_at` only when the receipt status is
`SENT`, the receipt's failure reason, and metadata recording the vendor
message id, the receipt arrival time and the webhook origin. -/
def receiptUpdate (r : Receipt) (st : String) (now : Nat) (log : CommLog) : CommLog :=
  { log with
      status := st.toLower,
      delivered_at := if st = "SENT" then some r.deliveredAt else none,
      failure_reason := r.failureReason,
      metadata := ⟨r.vendorMessageId, some now, true⟩ }

/-- Mongoose `findOneAndUpdate` on a list store: rewrite the first row
matching the predicate, leave everything else untouched. -/
def updateFirst (p : CommLog → Bool) (f : CommLog → CommLog) : List CommLog → List CommLog
  | [] => []
  | log :: rest => if p log then f log :: rest else log :: updateFirst p f rest

/-- handleDeliveryReceipt, vendor.controller.js lines 302-363: reject a
missing `messageId` or `status` with 400 (store untouched); otherwise
`findOneAndUpdate` by `message_id` — if no row matches, answer 404 with
the store unchanged, else rewrite the matching row with `receiptUpdate`
and answer 200.  Returns the HTTP status and the resulting store. -/
def handleDeliveryReceipt (now : Nat) (store : List CommLog) (r : Receipt) :
    Nat × List CommLog :=
  match r.messageId with
  | none => (400, store)
  | some mid =>
      match r.status with
      | none => (400, store)
      | some st =>
          if store.any (fun log => log.message_id == mid) then
            (200, updateFirst (fun log => log.message_id == mid) (receiptUpdate r st now) store)
          else
            (404, store)

/-! ## Helper lemmas -/

/-- Flattening the batches reconstructs the original list. -/
theorem createBatches_flatten {α : Type} (n : Nat) (hn : n ≠ 0) :
    ∀ l : List α, (createBatches l n).flatten = l := by
  intro l
  generalize hk : l.length = k
  induction k using Nat.strong_induction_on generalizing l with
  | _ k ih =>
    subst hk
    by_cases he : l = []
    · subst he; simp [createBatches]
    · rw [createBatches, if_neg (by simp [he]), if_neg hn, List.flatten_cons]
      rw [ih ((l.drop n).length) ?_ (l.drop n) rfl, List.take_append_drop]
      have hl : l.length ≠ 0 := by simpa using he
      simp only [List.length_drop]
      omega

/-- The number of batches is the ceiling of `length / n`. -/
theorem createBatches_length {α : Type} (n : Nat) (hn : n ≠ 0) :
    ∀ l : List α, (createBatches l n).length = (l.length + n - 1) / n := by
  intro l
  generalize hk : l.length = k
  induction k using Nat.strong_induction_on generalizing l with
  | _ k ih =>
    subst hk
    by_cases he : l = []
    · subst he
      rw [createBatches, if_pos List.isEmpty_nil]
      simp only [List.length_nil, Nat.zero_add]
      exact (Nat.div_eq_of_lt (by omega)).symm
    · rw [createBatches, if_neg (by simp [he]), if_neg hn, List.length_cons]
      rw [ih ((l.drop n).length) ?_ (l.drop n) rfl]
      · have hl : l.length ≠ 0 := by simpa using he
        simp only [List.length_drop]
        rcases Nat.lt_or_ge l.length n with hlt | hge
        · have h1 : l.length - n = 0 := by omega
          rw [h1]
          have h2 : (l.length + n - 1) / n = 1 := by
            apply Nat.div_eq_of_lt_le <;> omega
          have h3 : (0 + n - 1) / n = 0 := Nat.div_eq_of_lt (by omega)
          omega
        · have h1 : l.length - n + n - 1 = l.length - 1 := by omega
          have h2 : l.length + n - 1 = (l.length - 1) + n := by omega
          rw [h1, h2, Nat.add_div_right _ (Nat.pos_of_ne_zero hn)]
      · have hl : l.length ≠ 0 := by simpa using he
        simp only [List.length_drop]
        omega

/-- Every batch is nonempty and no longer than `n`. -/
theorem createBatches_mem_length {α : Type} (n : Nat) (hn : n ≠ 0) :
    ∀ l : List α, ∀ b ∈ createBatches l n, 0 < b.length ∧ b.length ≤ n := by
  intro l
  generalize hk : l.length = k
  induction k using Nat.strong_induction_on generalizing l with
  | _ k ih =>
    subst hk
    by_cases he : l = []
    · subst he; simp [createBatches]
    · rw [createBatches, if_neg (by simp [he]), if_neg hn]
      intro b hb
      rcases List.mem_cons.mp hb with hb | hb
      · subst hb
        have hl : l.length ≠ 0 := by simpa using he
        constructor
        · simp only [List.length_take]
          omega
        · simp only [List.length_take]
          omega
      · exact ih ((l.drop n).length) (by
          have hl : l.length ≠ 0 := by simpa using he
          simp only [List.length_drop]; omega) (l.drop n) rfl b hb

/-- Every batch except possibly the last has length exactly `n`. -/
theorem createBatches_dropLast_length {α : Type} (n : Nat) (hn : n ≠ 0) :
    ∀ l : List α, ∀ b ∈ (createBatches l n).dropLast, b.length = n := by
  intro l
  generalize hk : l.length = k
  induction k using Nat.strong_induction_on generalizing l with
  | _ k ih =>
    subst hk
    by_cases he : l = []
    · subst he; simp [createBatches]
    · rw [createBatches, if_neg (by simp [he]), if_neg hn]
      have hl : l.length ≠ 0 := by simpa using he
      by_cases hd : l.drop n = []
      · rw [hd]
        rw [createBatches, if_pos (by simp [hd])]
        simp
      · intro b hb
        have hcb : createBatches (l.drop n) n ≠ [] := by
          rw [createBatches, if_neg (by simp [hd]), if_neg hn]
          simp
        rw [List.dropLast_cons_of_ne_nil hcb] at hb
        rcases List.mem_cons.mp hb with hb | hb
        · subst hb
          have hdl : n < l.length := by
            simpa [List.length_drop] using hd
          simp only [List.length_take]
          omega
        · exact ih ((l.drop n).length) (by simp only [List.length_drop]; omega)
            (l.drop n) rfl b hb

/-- Each email in a bulk send contributes to exactly one of the two
counters. -/
theorem foldl_sendBulkStep_sum {α : Type} (outcome : Nat → Bool) :
    ∀ (batch : List α) (acc : BulkResult × Nat),
      (batch.foldl (sendBulkStep outcome) acc).1.sent
        + (batch.foldl (sendBulkStep outcome) acc).1.failed
        = acc.1.sent + acc.1.failed + batch.length := by
  intro batch
  induction batch with
  | nil => intro acc; simp
  | cons x xs ih =>
      intro acc
      rw [List.foldl_cons, ih]
      by_cases h : outcome acc.2 <;> simp [sendBulkStep, h] <;> omega

/-- The two counters of a bulk send always add up to the batch size. -/
theorem sendBulkEmails_sent_add_failed {α : Type} (outcome : Nat → Bool) (batch : List α) :
    (sendBulkEmails outcome batch).sent + (sendBulkEmails outcome batch).failed
      = batch.length := by
  rw [sendBulkEmails, foldl_sendBulkStep_sum]
  simp

/-- If the batch loop completes, the final counters add up to the
initial counters plus the total number of recipients across the
batches. -/
theorem runBatches_ok_sum {α : Type} (behavior : Nat → BatchBehavior)
    (logInsert : Nat → Option String) :
    ∀ (batches : List (List α)) (idx sentCount failedCount s f : Nat),
      runBatches behavior logInsert idx sentCount failedCount batches = Except.ok (s, f) →
      s + f = sentCount + failedCount + (batches.map List.length).sum := by
  intro batches
  induction batches with
  | nil =>
      intro idx sentCount failedCount s f h
      simp only [runBatches] at h
      cases h
      simp
  | cons batch rest ih =>
      intro idx sentCount failedCount s f h
      simp only [runBatches] at h
      cases hli : logInsert idx with
      | some msg => rw [hli] at h; cases h
      | none =>
          rw [hli] at h
          cases hb : behavior idx with
          | ok outcome =>
              rw [hb] at h
              have := ih (idx + 1) (sentCount + (sendBulkEmails outcome batch).sent)
                (failedCount + (sendBulkEmails outcome batch).failed) s f h
              have hsf := sendBulkEmails_sent_add_failed outcome batch
              simp only [List.map_cons, List.sum_cons]
              omega
          | exn msg =>
              rw [hb] at h
              have := ih (idx + 1) sentCount (failedCount + batch.length) s f h
              simp only [List.map_cons, List.sum_cons]
              omega

/-- The vendor statistics invariant `successful + failed = totalSent`
is preserved by every event. -/
theorem applyStatsEvent_inv (s : VendorStats) (e : StatsEvent)
    (h : s.successful + s.failed = s.totalSent) :
    (applyStatsEvent s e).successful + (applyStatsEvent s e).failed
      = (applyStatsEvent s e).totalSent := by
  cases e with
  | send b => cases b <;> simp [applyStatsEvent, updateStats] <;> omega
  | reset => simp [applyStatsEvent, initialVendorStats]

/-- The invariant holds after any fold of events over an invariant
state. -/
theorem foldl_statsEvent_inv :
    ∀ (events : List StatsEvent) (s : VendorStats),
      s.successful + s.failed = s.totalSent →
      (events.foldl applyStatsEvent s).successful + (events.foldl applyStatsEvent s).failed
        = (events.foldl applyStatsEvent s).totalSent := by
  intro events
  induction events with
  | nil => intro s h; simpa using h
  | cons e rest ih =>
      intro s h
      rw [List.foldl_cons]
      exact ih (applyStatsEvent s e) (applyStatsEvent_inv s e h)

/-- `findOneAndUpdate` rewrites exactly the first matching row. -/
theorem updateFirst_append (p : CommLog → Bool) (f : CommLog → CommLog) :
    ∀ (pre : List CommLog) (tgt : CommLog) (post : List CommLog),
      (∀ log ∈ pre, p log = false) → p tgt = true →
      updateFirst p f (pre ++ tgt :: post) = pre ++ f tgt :: post := by
  intro pre
  induction pre with
  | nil =>
      intro tgt post _ htgt
      simp [updateFirst, htgt]
  | cons x xs ih =>
      intro tgt post hpre htgt
      have hx : p x = false := hpre x (List.mem_cons_self x xs)
      simp only [List.cons_append, updateFirst, hx]
      simp only [Bool.false_eq_true, if_false, List.cons.injEq, true_and]
      exact ih tgt post (fun log hl => hpre log (List.mem_cons_of_mem x hl)) htgt

/-! ## Concrete inputs used by the witnesses -/

/-- A concrete campaign job sitting on a queue. -/
def exJob : Job := ⟨1, 2, "pending", "DELIVER_CAMPAIGN", "payload", none, none⟩

/-- A concrete substrate holding that one job on `campaign.jobs`. -/
def exStore : QueueMap := fun n => if n = "campaign.jobs" then [exJob] else []

/-- A concrete job whose type no consumer knows. -/
def exUnknownJob : Job := ⟨1, 2, "pending", "SEND_NEWSLETTER", "payload", none, none⟩

/-- A handler that always succeeds. -/
def okHandler : Job → Except String Unit := fun _ => Except.ok ()

/-! ## The claims -/

/-- C1: in the consumer loop, a job whose handler succeeds adds no
entry to the `<queue>:failed` dead-letter list, while a job whose
handler signals an error adds exactly one copy of the job to
`<queue>:failed`, annotated with `error` (the handler's message) and
`failedAt`, and carrying the original job's `type` and `payload`. -/
theorem claim_C1_dead_letter_exactly_once (st : QueueMap) (q : String)
    (handler : Job → Except String Unit) (job : Job) (rest : List Job)
    (fid ft fa : Nat) (hdq : st q = job :: rest) :
    (handler job = Except.ok () →
      processQueueStep st q handler fid ft fa (q ++ ":failed") = st (q ++ ":failed")) ∧
    (∀ msg, handler job = Except.error msg →
      processQueueStep st q handler fid ft fa (q ++ ":failed")
        = st (q ++ ":failed") ++ [addToQueue fid ft (deadLetterJob job msg fa)] ∧
      (addToQueue fid ft (deadLetterJob job msg fa)).error = some msg ∧
      (addToQueue fid ft (deadLetterJob job msg fa)).failedAt = some fa ∧
      (addToQueue fid ft (deadLetterJob job msg fa)).type = job.type ∧
      (addToQueue fid ft (deadLetterJob job msg fa)).payload = job.payload) := by
  have hne : ¬((q ++ ":failed") = q) := fun h => ne_failedQueue q h.symm
  constructor
  · intro hok
    simp only [processQueueStep, hdq, hok]
    simp [hne]
  · intro msg herr
    refine ⟨?_, rfl, rfl, rfl, rfl⟩
    simp only [processQueueStep, hdq, herr]
    simp [enqueue, hne]

/-- Witness for C1-: the concrete job on `campaign.jobs` whose handler
fails with `boom` lands exactly once, annotated, on
`campaign.jobs:failed`. -/
theorem claim_C1_witness :
    processQueueStep exStore "campaign.jobs" (fun _ => Except.error "boom") 5 6 7
        ("campaign.jobs" ++ ":failed")
      = exStore ("campaign.jobs" ++ ":failed")
          ++ [addToQueue 5 6 (deadLetterJob exJob "boom" 7)] ∧
    (addToQueue 5 6 (deadLetterJob exJob "boom" 7)).error = some "boom" ∧
    (addToQueue 5 6 (deadLetterJob exJob "boom" 7)).failedAt = some 7 ∧
    (addToQueue 5 6 (deadLetterJob exJob "boom" 7)).type = exJob.type ∧
    (addToQueue 5 6 (deadLetterJob exJob "boom" 7)).payload = exJob.payload :=
  (claim_C1_dead_letter_exactly_once exStore "campaign.jobs" (fun _ => Except.error "boom")
    exJob [] 5 6 7 (by simp [exStore])).2 "boom" rfl

/-- C2 counterexample: the customer job dispatcher does NOT return
normally on an unknown job type — it raises `Unknown job type: ...`,
so the claim as stated is false for the customer consumer. -/
theorem claim_C2_counterexample :
    exUnknownJob.type ∉ customerJobTypes ∧
    processCustomerJob okHandler okHandler okHandler okHandler okHandler exUnknownJob
      = Except.error ("Unknown job type: SEND_NEWSLETTER") := by
  constructor
  · decide
  · rfl

/-- C2 (amended): on a job type unknown to both dispatch tables, the
campaign job dispatcher logs and returns normally, but the customer job
dispatcher raises `Unknown job type: <type>` (so such customer jobs are
dead-lettered rather than dropped). -/
theorem claim_C2_unknown_type_dispatch
    (deliver createC updateC deleteC bulkImport updStats : Job → Except String Unit)
    (job : Job) (hc : job.type ∉ campaignJobTypes) (hk : job.type ∉ customerJobTypes) :
    processCampaignJob deliver job = Except.ok () ∧
    processCustomerJob createC updateC deleteC bulkImport updStats job
      = Except.error ("Unknown job type: " ++ job.type) := by
  simp only [campaignJobTypes, List.mem_singleton] at hc
  simp only [customerJobTypes, List.mem_cons, List.mem_singleton, not_or,
    List.not_mem_nil, or_false] at hk
  obtain ⟨h1, h2, h3, h4, h5⟩ := hk
  constructor
  · simp [processCampaignJob, hc]
  · simp [processCustomerJob, h1, h2, h3, h4, h5]

/-- Witness for C2-: on the concrete unknown job type
`SEND_NEWSLETTER`, the campaign dispatcher succeeds and the customer
dispatcher raises. -/
theorem claim_C2_witness :
    processCampaignJob okHandler exUnknownJob = Except.ok () ∧
    processCustomerJob okHandler okHandler okHandler okHandler okHandler exUnknownJob
      = Except.error ("Unknown job type: " ++ exUnknownJob.type) :=
  claim_C2_unknown_type_dispatch okHandler okHandler okHandler okHandler okHandler okHandler
    exUnknownJob (by decide) (by decide)

/-- C5: for every queue name and every substrate state — including
failing substrate reads — the stats returned by getQueueStats satisfy
`total = pending + failed`. -/
theorem claim_C5_queue_stats_total (llen : String → Except String Nat) (q : String) :
    (getQueueStats llen q).total
      = (getQueueStats llen q).pending + (getQueueStats llen q).failed := by
  unfold getQueueStats
  cases llen q <;> cases llen (q ++ ":failed") <;> simp

/-- C6: partitioning a recipient list into batches of 10 produces
`ceil(N/10)` batches, each of size 10 except possibly the last (all
nonempty and of size at most 10), and flattening the batches in order
reconstructs the original list. -/
theorem claim_C6_batch_partition {α : Type} (l : List α) :
    (createBatches l 10).length = (l.length + 9) / 10 ∧
    (∀ b ∈ (createBatches l 10).dropLast, b.length = 10) ∧
    (∀ b ∈ createBatches l 10, 0 < b.length ∧ b.length ≤ 10) ∧
    (createBatches l 10).flatten = l := by
  refine ⟨?_, createBatches_dropLast_length 10 (by decide) l,
    createBatches_mem_length 10 (by decide) l, createBatches_flatten 10 (by decide) l⟩
  rw [createBatches_length 10 (by decide) l]
  congr 1

/-- Witness for C6: the spec's own scenario — 25 recipients make 3
batches (10, 10, 5) that flatten back to the original list. -/
theorem claim_C6_witness :
    (createBatches (List.range 25) 10).length = (25 + 9) / 10 ∧
    (∀ b ∈ (createBatches (List.range 25) 10).dropLast, b.length = 10) ∧
    (∀ b ∈ createBatches (List.range 25) 10, 0 < b.length ∧ b.length ≤ 10) ∧
    (createBatches (List.range 25) 10).flatten = List.range 25 := by
  have h := claim_C6_batch_partition (List.range 25)
  simpa using h

/-- C9: the broker's enqueue freshly generates `id` and `timestamp` and
forces `status = 'pending'`, overwriting whatever the caller supplied;
hence a dead-lettered job keeps its `error`/`failedAt` annotations but
carries a new id and status `pending`, not `failed`. -/
theorem claim_C9_enqueue_overwrites_metadata (job : Job) (msg : String) (fid ft fa : Nat)
    (hfresh : fid ≠ job.id) :
    (addToQueue fid ft job).id = fid ∧
    (addToQueue fid ft job).timestamp = ft ∧
    (addToQueue fid ft job).status = "pending" ∧
    (addToQueue fid ft (deadLetterJob job msg fa)).error = some msg ∧
    (addToQueue fid ft (deadLetterJob job msg fa)).failedAt = some fa ∧
    (addToQueue fid ft (deadLetterJob job msg fa)).id ≠ job.id ∧
    (addToQueue fid ft (deadLetterJob job msg fa)).status = "pending" := by
  refine ⟨rfl, rfl, rfl, rfl, rfl, ?_, rfl⟩
  simpa [addToQueue, deadLetterJob] using hfresh

/-- Witness for C9: re-enqueueing the concrete job (id 1) under fresh
id 9 overwrites its metadata, and its dead-letter copy keeps the
annotations with the new id and status `pending`. -/
theorem claim_C9_witness :
    (addToQueue 9 6 exJob).id = 9 ∧
    (addToQueue 9 6 exJob).timestamp = 6 ∧
    (addToQueue 9 6 exJob).status = "pending" ∧
    (addToQueue 9 6 (deadLetterJob exJob "boom" 7)).error = some "boom" ∧
    (addToQueue 9 6 (deadLetterJob exJob "boom" 7)).failedAt = some 7 ∧
    (addToQueue 9 6 (deadLetterJob exJob "boom" 7)).id ≠ exJob.id ∧
    (addToQueue 9 6 (deadLetterJob exJob "boom" 7)).status = "pending" :=
  claim_C9_enqueue_overwrites_metadata exJob "boom" 9 6 7 (by decide)

/-- C10: after any history of send decisions and resets starting from
the constructor state, the vendor statistics satisfy
`successful + failed = totalSent`; moreover each send decision
increments `totalSent` by exactly one and never decreases any of the
three counters. -/
theorem claim_C10_vendor_stats_invariant :
    (∀ events : List StatsEvent,
        (runStats events).successful + (runStats events).failed
          = (runStats events).totalSent) ∧
    (∀ (s : VendorStats) (b : Bool),
        (updateStats s b).totalSent = s.totalSent + 1 ∧
        s.successful ≤ (updateStats s b).successful ∧
        s.failed ≤ (updateStats s b).failed ∧
        s.totalSent ≤ (updateStats s b).totalSent) := by
  constructor
  · intro events
    exact foldl_statsEvent_inv events initialVendorStats rfl
  · intro s b
    cases b <;> simp [updateStats]

/-- A freshly created campaign document. -/
def freshCampaign : Campaign := ⟨"pending", none, none, none, none⟩

/-- A concrete per-batch vendor behavior: every batch returns normally,
and in each batch only the first email is accepted. -/
def exBehavior : Nat → BatchBehavior := fun _ => BatchBehavior.ok (fun i => i == 0)

/-- Storage oracle under which every communication-log bulk insert
succeeds. -/
def noLogFailure : Nat → Option String := fun _ => none

/-- Storage oracle under which the first bulk insert throws. -/
def exLogFailure : Nat → Option String := fun _ => some "db down"

/-- `createBatches` on the concrete three-customer list. -/
theorem createBatches_concrete3 : createBatches ([0, 1, 2] : List Nat) 10 = [[0, 1, 2]] := by
  have h0 : createBatches ([] : List Nat) 10 = [] := by rw [createBatches]; simp
  rw [createBatches]
  simp [h0]

/-- The final campaign state of the concrete successful delivery run. -/
def exCompleted : Campaign :=
  ⟨"completed", some 1, some 2, some ⟨1, 2, 3, toFixed2 ((1 : ℚ) / (3 : ℚ) * 100)⟩, none⟩

/-- Evaluation of the delivery engine on the concrete successful run:
three customers in one batch, one accepted, two rejected. -/
theorem deliverCampaign_concrete :
    deliverCampaign exBehavior noLogFailure ([0, 1, 2] : List Nat) freshCampaign 1 2
      = (exCompleted, Except.ok ()) := by
  simp only [deliverCampaign]
  rw [createBatches_concrete3]
  simp only [runBatches, noLogFailure, exBehavior, sendBulkEmails, sendBulkStep,
    List.foldl_cons, List.foldl_nil, processingUpdate, freshCampaign, exCompleted]
  norm_num

/-- The final campaign state of the concrete failing delivery run. -/
def exFailedCampaign : Campaign := ⟨"failed", some 1, some 2, none, some "db down"⟩

/-- Evaluation of the delivery engine on the concrete failing run: the
first communication-log bulk insert throws. -/
theorem deliverCampaign_fail_concrete :
    deliverCampaign exBehavior exLogFailure ([0, 1, 2] : List Nat) freshCampaign 1 2
      = (exFailedCampaign, Except.error "db down") := by
  simp only [deliverCampaign]
  rw [createBatches_concrete3]
  simp [runBatches, exLogFailure, processingUpdate, freshCampaign, exFailedCampaign]

/-- C3 counterexample: on the concrete run with 3 recipients of which
1 is accepted, the recorded `successRate` is `33.33` (the source
applies `toFixed(2)`), which is not equal to `sent/total*100 = 100/3`;
so the claim's exact success-rate equation is false. -/
theorem claim_C3_counterexample :
    (deliverCampaign exBehavior noLogFailure ([0, 1, 2] : List Nat) freshCampaign 1 2).1.deliveryStats
      = some ⟨1, 2, 3, 3333 / 100⟩ ∧
    (3333 / 100 : ℚ) ≠ (1 : ℚ) / 3 * 100 := by
  constructor
  · rw [deliverCampaign_concrete]
    have hfloor : (Int.floor ((1 : ℚ) / 3 * 100 * 100 + 1 / 2) : ℤ) = 3333 := by
      rw [Int.floor_eq_iff]
      norm_num
    simp only [exCompleted, toFixed2, hfloor]
    norm_num
  · norm_num

/-- C3 (amended): every delivery run that completes without an uncaught
exception leaves the campaign `completed` with a `completedAt`
timestamp and delivery statistics in which `total` is the number of
recipients, `sent + failed` equals that number, and `successRate` is
`sent/total*100` rounded to two decimal places (`toFixed(2)`). -/
theorem claim_C3_completion_stats {α : Type} (behavior : Nat → BatchBehavior)
    (logInsert : Nat → Option String) (customers : List α) (c : Campaign)
    (t1 t2 : Nat) (c' : Campaign)
    (h : deliverCampaign behavior logInsert customers c t1 t2 = (c', Except.ok ())) :
    c'.status = "completed" ∧ c'.completedAt = some t2 ∧
    ∃ ds : DeliveryStats, c'.deliveryStats = some ds ∧
      ds.total = customers.length ∧
      ds.sent + ds.failed = customers.length ∧
      ds.successRate = toFixed2 ((ds.sent : ℚ) / (customers.length : ℚ) * 100) := by
  simp only [deliverCampaign] at h
  cases hrb : runBatches behavior logInsert 0 0 0 (createBatches customers 10) with
  | error msg =>
      rw [hrb] at h
      exact absurd (congrArg Prod.snd h) (by simp)
  | ok p =>
      obtain ⟨s, f⟩ := p
      rw [hrb] at h
      have hc : c' = { processingUpdate c t1 with
          status := "completed",
          completedAt := some t2,
          deliveryStats := some
            ⟨s, f, customers.length, toFixed2 ((s : ℚ) / (customers.length : ℚ) * 100)⟩ } :=
        ((Prod.mk.injEq _ _ _ _).mp h).1.symm
      subst hc
      refine ⟨rfl, rfl, ⟨_, rfl, rfl, ?_, rfl⟩⟩
      show s + f = customers.length
      have hsum := runBatches_ok_sum behavior logInsert (createBatches customers 10) 0 0 0 s f hrb
      have hflat : ((createBatches customers 10).map List.length).sum = customers.length := by
        rw [← List.length_flatten, createBatches_flatten 10 (by decide)]
      omega

/-- Witness for C3-: the amended statement holds on the concrete run
with 3 recipients, 1 accepted, 2 rejected. -/
theorem claim_C3_witness :
    exCompleted.status = "completed" ∧ exCompleted.completedAt = some 2 ∧
    ∃ ds : DeliveryStats, exCompleted.deliveryStats = some ds ∧
      ds.total = ([0, 1, 2] : List Nat).length ∧
      ds.sent + ds.failed = ([0, 1, 2] : List Nat).length ∧
      ds.successRate = toFixed2 ((ds.sent : ℚ) / (([0, 1, 2] : List Nat).length : ℚ) * 100) :=
  claim_C3_completion_stats exBehavior noLogFailure ([0, 1, 2] : List Nat) freshCampaign
    1 2 exCompleted deliverCampaign_concrete

/-- C4: the persisted status sequence of every delivery run of a fresh
(pending, not yet completed) campaign is either
`pending -> processing -> completed` or `pending -> processing ->
failed`, and at each persisted state `completedAt` is set if and only
if the status is `completed` or `failed`. -/
theorem claim_C4_status_lifecycle {α : Type} (behavior : Nat → BatchBehavior)
    (logInsert : Nat → Option String) (customers : List α) (c : Campaign) (t1 t2 : Nat)
    (hst : c.status = "pending") (hca : c.completedAt = none) :
    ((deliverCampaignTrace behavior logInsert customers c t1 t2).map Campaign.status
        = ["pending", "processing", "completed"] ∨
     (deliverCampaignTrace behavior logInsert customers c t1 t2).map Campaign.status
        = ["pending", "processing", "failed"]) ∧
    (∀ x ∈ deliverCampaignTrace behavior logInsert customers c t1 t2,
        (x.completedAt ≠ none ↔ (x.status = "completed" ∨ x.status = "failed"))) := by
  simp only [deliverCampaignTrace, deliverCampaign]
  cases hrb : runBatches behavior logInsert 0 0 0 (createBatches customers 10) with
  | error msg =>
      constructor
      · right
        simp [processingUpdate, hst]
      · intro x hx
        simp only [List.mem_cons, List.not_mem_nil, or_false] at hx
        rcases hx with hx | hx | hx <;> subst hx <;>
          simp [processingUpdate, hst, hca]
  | ok p =>
      obtain ⟨s, f⟩ := p
      constructor
      · left
        simp [processingUpdate, hst]
      · intro x hx
        simp only [List.mem_cons, List.not_mem_nil, or_false] at hx
        rcases hx with hx | hx | hx <;> subst hx <;>
          simp [processingUpdate, hst, hca]

/-- Witness for C4: the concrete successful run of a fresh campaign
follows `pending -> processing -> completed`, and its final state has
`completedAt` set with status `completed`. -/
theorem claim_C4_witness :
    ((deliverCampaignTrace exBehavior noLogFailure ([0, 1, 2] : List Nat) freshCampaign 1 2).map
        Campaign.status = ["pending", "processing", "completed"] ∨
     (deliverCampaignTrace exBehavior noLogFailure ([0, 1, 2] : List Nat) freshCampaign 1 2).map
        Campaign.status = ["pending", "processing", "failed"]) ∧
    (exCompleted.completedAt ≠ none ↔
      (exCompleted.status = "completed" ∨ exCompleted.status = "failed")) := by
  have h := claim_C4_status_lifecycle exBehavior noLogFailure ([0, 1, 2] : List Nat)
    freshCampaign 1 2 rfl rfl
  refine ⟨h.1, h.2 exCompleted ?_⟩
  simp [deliverCampaignTrace, deliverCampaign_concrete]

/-- C7: whenever the delivery procedure ends with an uncaught
exception, the campaign is marked `failed` with `completedAt` and
`failureReason` set to the exception's message, the error is re-raised
to the consumer loop, and a consumer-loop iteration dispatching that
delivery therefore dead-letters the job with the same error
annotation. -/
theorem claim_C7_uncaught_exception {α : Type} (behavior : Nat → BatchBehavior)
    (logInsert : Nat → Option String) (customers : List α) (c : Campaign)
    (t1 t2 : Nat) (c' : Campaign) (msg : String)
    (h : deliverCampaign behavior logInsert customers c t1 t2 = (c', Except.error msg)) :
    c'.status = "failed" ∧ c'.completedAt = some t2 ∧ c'.failureReason = some msg ∧
    (∀ (st : QueueMap) (q : String) (job : Job) (rest : List Job) (fid ft fa : Nat),
      st q = job :: rest → job.type = "DELIVER_CAMPAIGN" →
      processQueueStep st q
          (processCampaignJob (fun _ =>
            (deliverCampaign behavior logInsert customers c t1 t2).2))
          fid ft fa (q ++ ":failed")
        = st (q ++ ":failed") ++ [addToQueue fid ft (deadLetterJob job msg fa)]) := by
  have hsnd : (deliverCampaign behavior logInsert customers c t1 t2).2 = Except.error msg := by
    rw [h]
  simp only [deliverCampaign] at h
  cases hrb : runBatches behavior logInsert 0 0 0 (createBatches customers 10) with
  | ok p =>
      obtain ⟨s, f⟩ := p
      rw [hrb] at h
      exact absurd (congrArg Prod.snd h) (by simp)
  | error msg' =>
      rw [hrb] at h
      have hc : c' = { processingUpdate c t1 with
          status := "failed", completedAt := some t2, failureReason := some msg' } :=
        ((Prod.mk.injEq _ _ _ _).mp h).1.symm
      have hmsg : msg' = msg := by
        have := ((Prod.mk.injEq _ _ _ _).mp h).2
        simpa using this
      subst hmsg
      subst hc
      refine ⟨rfl, rfl, rfl, ?_⟩
      intro st q job rest fid ft fa hdq htype
      have hne : ¬((q ++ ":failed") = q) := fun hq => ne_failedQueue q hq.symm
      simp only [processQueueStep, hdq, processCampaignJob, htype, if_pos, hsnd]
      simp [enqueue, hne]

/-- Witness for C7: on the concrete failing run (the first bulk insert
throws `db down`), the campaign ends `failed` with that reason, and the
consumer loop dead-letters the concrete campaign job annotated with
`db down`. -/
theorem claim_C7_witness :
    exFailedCampaign.status = "failed" ∧ exFailedCampaign.completedAt = some 2 ∧
    exFailedCampaign.failureReason = some "db down" ∧
    processQueueStep exStore "campaign.jobs"
        (processCampaignJob (fun _ =>
          (deliverCampaign exBehavior exLogFailure ([0, 1, 2] : List Nat) freshCampaign 1 2).2))
        5 6 7 ("campaign.jobs" ++ ":failed")
      = exStore ("campaign.jobs" ++ ":failed")
          ++ [addToQueue 5 6 (deadLetterJob exJob "db down" 7)] := by
  have h := claim_C7_uncaught_exception exBehavior exLogFailure ([0, 1, 2] : List Nat)
    freshCampaign 1 2 exFailedCampaign "db down" deliverCampaign_fail_concrete
  exact ⟨h.1, h.2.1, h.2.2.1,
    h.2.2.2 exStore "campaign.jobs" exJob [] 5 6 7 (by simp [exStore]) rfl⟩

/-- Metadata of a freshly inserted communication log. -/
def exMeta : LogMeta := ⟨none, none, false⟩

/-- A stored communication log whose message id is `m1`. -/
def exLogOther : CommLog := ⟨"m1", "pending", none, none, exMeta⟩

/-- A stored communication log whose message id is `m2`. -/
def exLogTarget : CommLog := ⟨"m2", "pending", none, none, exMeta⟩

/-- A concrete delivery receipt for message `m2` with status SENT. -/
def exReceipt : Receipt := ⟨some "m2", some "SENT", 42, none, some "v9"⟩

/-- C8: a delivery receipt carrying a messageId and status that matches
no stored communication log is answered with a not-found outcome and
leaves the store unchanged; one that matches a stored log rewrites
exactly that log, setting its status (lowercased), `delivered_at`
(timestamp when the receipt says SENT, cleared otherwise),
`failure_reason`, and metadata recording the vendor message id, the
receipt arrival time and the webhook origin. -/
theorem claim_C8_receipt_handling (now : Nat) (r : Receipt) (mid st : String)
    (hm : r.messageId = some mid) (hs : r.status = some st) :
    (∀ store : List CommLog, (∀ log ∈ store, log.message_id ≠ mid) →
        handleDeliveryReceipt now store r = (404, store)) ∧
    (∀ (pre : List CommLog) (tgt : CommLog) (post : List CommLog),
        (∀ log ∈ pre, log.message_id ≠ mid) → tgt.message_id = mid →
        handleDeliveryReceipt now (pre ++ tgt :: post) r
          = (200, pre ++ receiptUpdate r st now tgt :: post) ∧
        (receiptUpdate r st now tgt).status = st.toLower ∧
        (receiptUpdate r st now tgt).delivered_at
          = (if st = "SENT" then some r.deliveredAt else none) ∧
        (receiptUpdate r st now tgt).failure_reason = r.failureReason ∧
        (receiptUpdate r st now tgt).metadata = ⟨r.vendorMessageId, some now, true⟩) := by
  constructor
  · intro store hnone
    have hany : store.any (fun log => log.message_id == mid) = false := by
      rw [List.any_eq_false]
      intro log hl
      simpa using hnone log hl
    simp only [handleDeliveryReceipt, hm, hs, hany]
    simp
  · intro pre tgt post hpre htgt
    have hany : (pre ++ tgt :: post).any (fun log => log.message_id == mid) = true := by
      rw [List.any_eq_true]
      exact ⟨tgt, by simp, by simp [htgt]⟩
    refine ⟨?_, rfl, rfl, rfl, rfl⟩
    simp only [handleDeliveryReceipt, hm, hs, hany, if_pos]
    rw [updateFirst_append _ _ pre tgt post
      (fun log hl => by simpa using hpre log hl) (by simp [htgt])]

/-- Witness for C8: a receipt for unknown `m2` against a store holding
only `m1` is a 404 no-op, and against a store that does hold `m2` it
rewrites exactly that row. -/
theorem claim_C8_witness :
    handleDeliveryReceipt 99 [exLogOther] exReceipt = (404, [exLogOther]) ∧
    handleDeliveryReceipt 99 ([exLogOther] ++ exLogTarget :: []) exReceipt
      = (200, [exLogOther] ++ receiptUpdate exReceipt "SENT" 99 exLogTarget :: []) := by
  have h := claim_C8_receipt_handling 99 exReceipt "m2" "SENT" rfl rfl
  refine ⟨h.1 [exLogOther] ?_, (h.2 [exLogOther] exLogTarget [] ?_ rfl).1⟩
  · intro log hl
    simp only [List.mem_singleton] at hl
    subst hl
    decide
  · intro log hl
    simp only [List.mem_singleton] at hl
    subst hl
    decide

end CRM
